import Mathlib

/-!
Shallow embedding of `serial_command.py` (the TELLIE serial-command driver).

Modelling conventions:
* A Python character/byte is modelled as its character code, a `Nat`.
  `chr` is modelled as the identity on the code, so a computed value that
  is outside `0..255` stays visible in the command payload (the real
  `chr` would refuse it); the byte-range claims are stated about these
  numeric values.
* The serial port is modelled deterministically: `serialOut` is the log
  of all bytes written, and `serialIn` is a script of the yields of the
  successive `read` calls: each bounded-timeout `read(n)` returns up to
  `n` bytes of whatever the device has delivered by that moment, so the
  environment is modelled as the list of those per-read yields (an
  exhausted script means every further read times out empty).  This
  lets a read made while the device is still quiet return `[]` even
  though a later read returns echo bytes.
* Python exceptions are modelled by `Except Err`; because a raised
  exception in Python leaves all mutations made so far in place, every
  operation returns the poststate next to the `Except` result.
* `time.sleep` and logging have no observable effect and are omitted.
* The external lookup tables (`parameters.pulse_number`,
  `parameters.fibre_delay`) are not part of this repository; they are
  passed in as an opaque pure-function record `Externals`, exactly the
  interface the source calls.
-/

/-- The external lookup collaborators from the `parameters` module
(not part of this repository); treated as opaque pure functions. -/
structure Externals where
  pulse_number : Int → Bool × Int × Nat × Nat
  fibre_delay : ℚ → Bool × ℚ × Nat

/-- The error taxonomy.  The source raises a single `TellieException`
whose message distinguishes the cases; we model the cases directly,
keeping the data the message carries where a claim refers to it. -/
inductive Err where
  /-- Message "Invalid pulse height/width/number/delay: ..." from the encoders. -/
  | invalidParameter : Err
  /-- Message "Buffer not clear: ..." carrying the bytes found. -/
  | bufferNotClear : List Nat → Err
  /-- Message "Unexpected buffer output: saw .., remainder .., expected .." -/
  | protocolDesync : List Nat → List Nat → List Nat → Err
  /-- Message "Cannot run command, in firing mode" -/
  | illegalWhileFiring : Err
  /-- Message "Cannot fire, already in firing mode" -/
  | alreadyFiring : Err
  /-- Message "Undefined options: ..." from `check_ready`. -/
  | incompleteConfiguration : List String → Err
  /-- Message "Cannot set parameter with channels set as ..." -/
  | channelNotSingle : Err
deriving DecidableEq, Repr

/- Protocol constants (module-level constants of `serial_command.py`);
the byte values are the character codes of the Python one-char strings. -/

def max_pulse_height : Int := 16383
def max_pulse_width : Int := 16383
def max_pulse_delay : ℚ := 256.020
def max_trigger_delay : Int := 1275
def max_fibre_delay : ℚ := 127.5
def max_pulse_number : Int := 65025

/-- Source `_cmd_fire_continuous = "a"` -/
def cmd_fire_continuous : Nat := 97
/-- Source `_cmd_fire_series = "g"` -/
def cmd_fire_series : Nat := 103
/-- Source `_buffer_end_sequence = "K"` -/
def buffer_end_sequence : Nat := 75
/-- Source `_cmd_stop = "X"` -/
def cmd_stop : Nat := 88
/-- Source `_cmd_channel_clear = "C"` -/
def cmd_channel_clear : Nat := 67
/-- Source `_cmd_ph_hi = "L"` -/
def cmd_ph_hi : Nat := 76
/-- Source `_cmd_ph_lo = "M"` -/
def cmd_ph_lo : Nat := 77
/-- Source `_cmd_ph_end = "P"` -/
def cmd_ph_end : Nat := 80
/-- Source `_cmd_pw_hi = "Q"` -/
def cmd_pw_hi : Nat := 81
/-- Source `_cmd_pw_lo = "R"` -/
def cmd_pw_lo : Nat := 82
/-- Source `_cmd_pw_end = "S"` -/
def cmd_pw_end : Nat := 83
/-- Source `_cmd_pn_hi = "H"` -/
def cmd_pn_hi : Nat := 72
/-- Source `_cmd_pn_lo = "G"` -/
def cmd_pn_lo : Nat := 71
/-- Source `_cmd_pd = "u"` -/
def cmd_pd : Nat := 117
/-- Source `_cmd_td = "d"` -/
def cmd_td : Nat := 100
/-- Source `_cmd_fd = "e"` -/
def cmd_fd : Nat := 101

/-- The Python `int()` conversion applied to a (rational-valued) number: truncation
toward zero. -/
def pytrunc (q : ℚ) : ℤ := if 0 ≤ q then ⌊q⌋ else ⌈q⌉

/-! ## Parameter codec (`command_*` module functions) -/

/-- Source `command_pulse_height(par)`: bound check, then
`hi = par >> 8`, `lo = par & 255`, units `["L"+chr(hi), "M"+chr(lo), "P"]`,
expected echo `"LMP"`. -/
def command_pulse_height (par : Int) : Except Err (List (List Nat) × List Nat) :=
  if par > max_pulse_height ∨ par < 0 then .error .invalidParameter
  else
    .ok ([[cmd_ph_hi, par.toNat >>> 8], [cmd_ph_lo, par.toNat &&& 255], [cmd_ph_end]],
         [cmd_ph_hi, cmd_ph_lo, cmd_ph_end])

/-- Source `command_pulse_width(par)`: bound check, same high/low split, units
`["Q"+chr(hi), "R"+chr(lo)+"S"]`, expected echo `"QRS"`. -/
def command_pulse_width (par : Int) : Except Err (List (List Nat) × List Nat) :=
  if par > max_pulse_width ∨ par < 0 then .error .invalidParameter
  else
    .ok ([[cmd_pw_hi, par.toNat >>> 8], [cmd_pw_lo, par.toNat &&& 255, cmd_pw_end]],
         [cmd_pw_hi, cmd_pw_lo, cmd_pw_end])

/-- Source `command_pulse_number(par)`: bound check, then delegates to the
external lookup `parameters.pulse_number(int(par))` returning
`(adjusted, actual, hi, lo)`; `adjusted` means the count is not exactly
representable and the call fails.  `par` is already integral here, so
`int(par)` is the identity. -/
def command_pulse_number (ext : Externals) (par : Int) :
    Except Err (List (List Nat) × List Nat) :=
  if par > max_pulse_number ∨ par < 0 then .error .invalidParameter
  else
    let r := ext.pulse_number par
    if r.1 then .error .invalidParameter
    else .ok ([[cmd_pn_hi, r.2.2.1], [cmd_pn_lo, r.2.2.2]], [cmd_pn_hi, cmd_pn_lo])

/-- Source `command_pulse_delay(par)`: bound check, then `ms = int(par)`,
`us = int((par-ms)*250)`, units `["u"+chr(ms), chr(us)]`, echo `"u"`. -/
def command_pulse_delay (par : ℚ) : Except Err (List (List Nat) × List Nat) :=
  if par > max_pulse_delay ∨ par < 0 then .error .invalidParameter
  else
    let ms := pytrunc par
    let us := pytrunc ((par - ms) * 250)
    .ok ([[cmd_pd, ms.toNat], [us.toNat]], [cmd_pd])

/-- Source `command_trigger_delay(par)`: bound check, one unit `"d"+chr(par/5)`
(Python 2 integer division), echo `"d"`. -/
def command_trigger_delay (par : Int) : Except Err (List (List Nat) × List Nat) :=
  if par > max_trigger_delay ∨ par < 0 then .error .invalidParameter
  else .ok ([[cmd_td, (par / 5).toNat]], [cmd_td])

/-- Source `command_fibre_delay(par)`: bound check, then delegates to the
external lookup `parameters.fibre_delay(par)` returning
`(adjusted, adj_delay, setting)`; fails when adjusted; one unit
`"e"+chr(setting)`, echo `"e"`. -/
def command_fibre_delay (ext : Externals) (par : ℚ) :
    Except Err (List (List Nat) × List Nat) :=
  if par > max_fibre_delay ∨ par < 0 then .error .invalidParameter
  else
    let r := ext.fibre_delay par
    if r.1 then .error .invalidParameter
    else .ok ([[cmd_fd, r.2.2]], [cmd_fd])

/-- Spec-side definition, following the words of the specification for the
pulse-delay sub-unit: "a sub-unit computed as
`round((value - floor(value)) * 250)`" (round = nearest integer,
half away from zero at the values of interest, as the Python `round`). -/
def specPulseDelaySubUnitRound (v : ℚ) : ℤ := round ((v - ⌊v⌋) * 250)

/-- Spec-side definition for the amended pulse-delay sub-unit:
truncation of `(value - floor(value)) * 250` toward zero (the
quantity is nonnegative, so truncation is the floor). -/
def specPulseDelaySubUnitTrunc (v : ℚ) : ℤ := ⌊(v - ⌊v⌋) * 250⌋

/-! ## Device state (`SerialCommand` instance attributes) and the
serial channel model -/

/-- The observable state of a `SerialCommand` object together with the
modelled serial channel.  `current_fd` is kept per channel, as the
data model of the spec describes for the per-channel fibre delay (the base
class stores the map; the channel list itself is owned by the
channel-selection extension). -/
structure SCState where
  current_ph : Option Int
  current_pn : Option Int
  current_pd : Option ℚ
  current_td : Option Int
  current_fd : Int → Option ℚ
  /-- Source `self._channel`: the currently selected channel(s), owned by the
  channel-selection collaborator; the core only reads it. -/
  channel : List Int
  firing : Bool
  force_setting : Bool
  /-- Script of the byte yields of the successive `read` calls. -/
  serialIn : List (List Nat)
  /-- Log of all bytes written to the channel, in order. -/
  serialOut : List Nat

/-- A freshly constructed session: caches empty, idle, no forcing,
one selected channel, quiet wire. -/
def baseState : SCState :=
  { current_ph := none, current_pn := none, current_pd := none,
    current_td := none, current_fd := fun _ => none, channel := [1],
    firing := false, force_setting := false, serialIn := [], serialOut := [] }

/-- Source `self._serial.read(n)`: returns up to `n` bytes (fewer on
timeout): the next scripted yield, truncated to `n`. -/
def serialRead (n : Nat) (s : SCState) : List Nat × SCState :=
  ((s.serialIn.headD []).take n, { s with serialIn := s.serialIn.tail })

/-- Source `self._serial.write(bs)`: appends the bytes to the wire log. -/
def serialWrite (bs : List Nat) (s : SCState) : SCState :=
  { s with serialOut := s.serialOut ++ bs }

/-- Source `_check_clear_buffer`: read up to 100 bytes; fail if any returned. -/
def check_clear_buffer (s : SCState) : Except Err Unit × SCState :=
  let rd := serialRead 100 s
  if rd.1 ≠ [] then (.error (.bufferNotClear rd.1), rd.2)
  else (.ok (), rd.2)

/-- Source `_send_command(command, readout=True, buffer_check=None)`:
write every unit in order; when `readout`, read exactly
`len(buffer_check)` bytes (default expected echo: the concatenation of
the units, also used when an empty `buffer_check` is passed, since
Python tests falsiness) and compare; on mismatch run the one built-in
recovery (drain up to 100, write stop `"X"`, write clear `"C"`, drain
up to 100) and fail with the desync error carrying what was seen, the
drained remainder, and what was expected.  The transport `write` itself
is assumed healthy (a transport failure would be `ConnectionLost`,
outside this deterministic model). -/
def send_command (command : List (List Nat)) (readout : Bool)
    (buffer_check : Option (List Nat)) (s : SCState) :
    Except Err Unit × SCState :=
  let s1 := serialWrite command.flatten s
  let bc := match buffer_check with
    | none => command.flatten
    | some b => if b.isEmpty then command.flatten else b
  if readout then
    let rd := serialRead bc.length s1
    if rd.1 ≠ bc then
      let rm := serialRead 100 rd.2
      let s4 := serialWrite [cmd_stop] rm.2
      let s5 := serialWrite [cmd_channel_clear] s4
      (.error (.protocolDesync rd.1 rm.1 bc), (serialRead 100 s5).2)
    else (.ok (), rd.2)
  else (.ok (), s1)

/-- Source `_send_setting_command(command, buffer_check=None, while_fire=False)`:
while firing, a plain call fails (`IllegalWhileFiring`) and a
`while_fire` call sends without readout; otherwise require a clear
buffer, then send with echo verification. -/
def send_setting_command (command : List (List Nat))
    (buffer_check : Option (List Nat)) (while_fire : Bool) (s : SCState) :
    Except Err Unit × SCState :=
  if s.firing = true then
    if while_fire = false then (.error .illegalWhileFiring, s)
    else send_command command false none s
  else
    let cb := check_clear_buffer s
    match cb.1 with
    | .error e => (.error e, cb.2)
    | .ok _ => send_command command true buffer_check cb.2

/-- Modelled from the spec: `_send_channel_setting_command`, the
per-channel variant used by `set_fibre_delay`, lives in the
channel-selection extension and is not part of the source of this
repository.  The spec (section 4.3) describes `setSetting` uniformly for
every parameter kind — illegal while firing, buffer-clear check, send
with echo verification — so it is modelled as the plain setting send. -/
def send_channel_setting_command (command : List (List Nat))
    (buffer_check : Option (List Nat)) (s : SCState) :
    Except Err Unit × SCState :=
  send_setting_command command buffer_check false s

/-- Source `check_ready`: collect the names of the unset mandatory settings
(pulse height, pulse number, pulse delay; the fibre- and
trigger-delay checks are commented out in the source) and fail if any. -/
def check_ready (s : SCState) : Except Err Unit × SCState :=
  let not_set : List String :=
    (if s.current_ph = none then ["Pulse height"] else []) ++
    (if s.current_pn = none then ["Pulse number"] else []) ++
    (if s.current_pd = none then ["Pulse delay"] else [])
  if not_set ≠ [] then (.error (.incompleteConfiguration not_set), s)
  else (.ok (), s)

/-! ## Setting commands -/

/-- Source `set_pulse_height(par)`: skip when equal to the cached value and
not forcing; otherwise encode, send as a plain setting command, and
cache the value only after the send came back clean. -/
def set_pulse_height (par : Int) (s : SCState) : Except Err Unit × SCState :=
  if s.current_ph = some par ∧ s.force_setting = false then (.ok (), s)
  else
    match command_pulse_height par with
    | .error e => (.error e, s)
    | .ok cb =>
      let r := send_setting_command cb.1 (some cb.2) false s
      match r.1 with
      | .error e => (.error e, r.2)
      | .ok _ => (.ok (), { r.2 with current_ph := some par })

/-- Source `set_pulse_number(par)`: same shape as `set_pulse_height`. -/
def set_pulse_number (ext : Externals) (par : Int) (s : SCState) :
    Except Err Unit × SCState :=
  if s.current_pn = some par ∧ s.force_setting = false then (.ok (), s)
  else
    match command_pulse_number ext par with
    | .error e => (.error e, s)
    | .ok cb =>
      let r := send_setting_command cb.1 (some cb.2) false s
      match r.1 with
      | .error e => (.error e, r.2)
      | .ok _ => (.ok (), { r.2 with current_pn := some par })

/-- Source `set_pulse_delay(par)`: same shape as `set_pulse_height`. -/
def set_pulse_delay (par : ℚ) (s : SCState) : Except Err Unit × SCState :=
  if s.current_pd = some par ∧ s.force_setting = false then (.ok (), s)
  else
    match command_pulse_delay par with
    | .error e => (.error e, s)
    | .ok cb =>
      let r := send_setting_command cb.1 (some cb.2) false s
      match r.1 with
      | .error e => (.error e, r.2)
      | .ok _ => (.ok (), { r.2 with current_pd := some par })

/-- Source `set_trigger_delay(par)`: same shape as `set_pulse_height`. -/
def set_trigger_delay (par : Int) (s : SCState) : Except Err Unit × SCState :=
  if s.current_td = some par ∧ s.force_setting = false then (.ok (), s)
  else
    match command_trigger_delay par with
    | .error e => (.error e, s)
    | .ok cb =>
      let r := send_setting_command cb.1 (some cb.2) false s
      match r.1 with
      | .error e => (.error e, r.2)
      | .ok _ => (.ok (), { r.2 with current_td := some par })

/-- Source `set_fibre_delay(par)`: requires exactly one selected channel,
then the same cache-skip / encode / send / cache-update shape, with the
per-channel cache entry and the (spec-modelled) channel setting send. -/
def set_fibre_delay (ext : Externals) (par : ℚ) (s : SCState) :
    Except Err Unit × SCState :=
  if s.channel.length ≠ 1 then (.error .channelNotSingle, s)
  else
    let ch := s.channel.headD 0
    if s.current_fd ch = some par ∧ s.force_setting = false then (.ok (), s)
    else
      match command_fibre_delay ext par with
      | .error e => (.error e, s)
      | .ok cb =>
        let r := send_channel_setting_command cb.1 (some cb.2) s
        match r.1 with
        | .error e => (.error e, r.2)
        | .ok _ =>
          (.ok (), { r.2 with
            current_fd := fun c => if c = ch then some par else r.2.current_fd c })

/-! ## Firing commands -/

/-- Source `fire(while_fire=False)`: when already firing without the override,
look for the end-of-sequence marker in a buffer read and fail with
`AlreadyFiring` if absent; then `check_ready`; then send the fire-series
command with echo verification — a short train
(`pulse_number * pulse_delay < 500`) expects the end marker appended to
the echo and stays idle, a long train expects the bare command code and
enters firing mode.  Clears `force_setting` on success.  (The product
reads the caches, which `check_ready` has just proven non-empty; `getD`
stands for that already-checked access.) -/
def fire (while_fire : Bool) (s : SCState) : Except Err Unit × SCState :=
  let entry : Except Err Unit × SCState :=
    if s.firing = true ∧ while_fire = false then
      let rd := serialRead 100 s
      if buffer_end_sequence ∈ rd.1 then (.ok (), { rd.2 with firing := false })
      else (.error .alreadyFiring, rd.2)
    else (.ok (), s)
  match entry.1 with
  | .error e => (.error e, entry.2)
  | .ok _ =>
    let s1 := entry.2
    match (check_ready s1).1 with
    | .error e => (.error e, (check_ready s1).2)
    | .ok _ =>
      let s2 := (check_ready s1).2
      if ((s2.current_pn.getD 0 : ℤ) : ℚ) * s2.current_pd.getD 0 < 500 then
        let r := send_command [[cmd_fire_series]] true
            (some [cmd_fire_series, buffer_end_sequence]) s2
        match r.1 with
        | .error e => (.error e, r.2)
        | .ok _ => (.ok (), { r.2 with force_setting := false })
      else
        let r := send_command [[cmd_fire_series]] true (some [cmd_fire_series]) s2
        match r.1 with
        | .error e => (.error e, r.2)
        | .ok _ => (.ok (), { r.2 with firing := true, force_setting := false })

/-- Source `fire_sequence(while_fire=False)`: note there is *no* firing-mode
reentry check in the source; it only checks readiness, sends the
fire-series command without readout, and enters firing mode. -/
def fire_sequence (_while_fire : Bool) (s : SCState) : Except Err Unit × SCState :=
  match (check_ready s).1 with
  | .error e => (.error e, (check_ready s).2)
  | .ok _ =>
    let r := send_command [[cmd_fire_series]] false none (check_ready s).2
    match r.1 with
    | .error e => (.error e, r.2)
    | .ok _ => (.ok (), { r.2 with firing := true, force_setting := false })

/-- Source `fire_continuous()`: the fire-family reentry check (marker lookup,
else `AlreadyFiring`), then send the continuous-fire command without
readout and enter firing mode. -/
def fire_continuous (s : SCState) : Except Err Unit × SCState :=
  let entry : Except Err Unit × SCState :=
    if s.firing = true then
      let rd := serialRead 100 s
      if buffer_end_sequence ∈ rd.1 then (.ok (), { rd.2 with firing := false })
      else (.error .alreadyFiring, rd.2)
    else (.ok (), s)
  match entry.1 with
  | .error e => (.error e, entry.2)
  | .ok _ =>
    let r := send_command [[cmd_fire_continuous]] false none entry.2
    match r.1 with
    | .error e => (.error e, r.2)
    | .ok _ => (.ok (), { r.2 with firing := true, force_setting := false })

/-- Source `stop()`: send the stop command without readout, read up to 100
residual bytes (returned to the caller), and force the idle state. -/
def stop (s : SCState) : Except Err (List Nat) × SCState :=
  let r := send_command [[cmd_stop]] false none s
  match r.1 with
  | .error e => (.error e, r.2)
  | .ok _ =>
    let rd := serialRead 100 r.2
    (.ok rd.1, { rd.2 with firing := false })

/-- A concrete instantiation of the external lookup tables, used to
exercise the theorems at concrete inputs: the pulse-number split is the
plain high/low byte split (never adjusted), the fibre-delay setting is
byte zero (never adjusted). -/
def extId : Externals :=
  { pulse_number := fun n => (false, n, n.toNat >>> 8, n.toNat &&& 255),
    fibre_delay := fun q => (false, q, 0) }

/-! ## Helper lemmas -/

/-- Bit-level bridge: `par & 255` is `par mod 256`. -/
lemma land255_eq_mod (n : Nat) : n &&& 255 = n % 256 := by
  have h := Nat.and_pow_two_sub_one_eq_mod n 8
  norm_num at h
  exact h

/-- Bit-level bridge: `par >> 8` is `par div 256`. -/
lemma shiftRight8_eq_div (n : Nat) : n >>> 8 = n / 256 := by
  have h := Nat.shiftRight_eq_div_pow n 8
  norm_num at h
  exact h

/-- On nonnegative arguments the Python truncation is the floor. -/
lemma pytrunc_of_nonneg {q : ℚ} (h : 0 ≤ q) : pytrunc q = ⌊q⌋ := by
  simp [pytrunc, h]

/-- The state after `_check_clear_buffer` has 100 bytes drained and is
otherwise untouched. -/
lemma check_clear_buffer_state (s : SCState) :
    (check_clear_buffer s).2 = { s with serialIn := s.serialIn.tail } := by
  simp only [check_clear_buffer, serialRead]
  split <;> rfl

/-- Source `_check_clear_buffer` succeeds exactly when the buffer is empty. -/
lemma check_clear_buffer_ok_iff (s : SCState) :
    (check_clear_buffer s).1 = .ok () ↔ (s.serialIn.headD []).take 100 = [] := by
  simp only [check_clear_buffer, serialRead]
  split <;> simp_all

/-- Source `_send_command` only touches the serial channel: every cache
field, the firing flag and the force flag are left unchanged. -/
lemma send_command_serial_only (c : List (List Nat)) (r : Bool)
    (b : Option (List Nat)) (s : SCState) :
    ∃ i o, (send_command c r b s).2 = { s with serialIn := i, serialOut := o } := by
  unfold send_command serialWrite serialRead
  dsimp only []
  split
  · split
    · exact ⟨_, _, rfl⟩
    · exact ⟨_, _, rfl⟩
  · exact ⟨_, _, rfl⟩

/-- Source `_send_setting_command` only touches the serial channel. -/
lemma send_setting_command_serial_only (c : List (List Nat))
    (b : Option (List Nat)) (w : Bool) (s : SCState) :
    ∃ i o, (send_setting_command c b w s).2 = { s with serialIn := i, serialOut := o } := by
  unfold send_setting_command
  by_cases hf : s.firing = true
  · rw [if_pos hf]
    by_cases hw : w = false
    · rw [if_pos hw]
      exact ⟨s.serialIn, s.serialOut, rfl⟩
    · rw [if_neg hw]
      exact send_command_serial_only c false none s
  · rw [if_neg hf]
    have hst := check_clear_buffer_state s
    cases hres : (check_clear_buffer s).1 with
    | error e =>
      refine ⟨s.serialIn.tail, s.serialOut, ?_⟩
      dsimp only []
      rw [hres, hst]
    | ok u =>
      obtain ⟨i, o, h⟩ :=
        send_command_serial_only c true b { s with serialIn := s.serialIn.tail }
      refine ⟨i, o, ?_⟩
      dsimp only []
      rw [hres, hst]
      exact h

/-- After a successful `set_pulse_height` the cache holds the value and
the force flag (and channel) are as before the call. -/
lemma set_pulse_height_ok_state (par : Int) (s : SCState)
    (h : (set_pulse_height par s).1 = .ok ()) :
    (set_pulse_height par s).2.current_ph = some par ∧
    (set_pulse_height par s).2.force_setting = s.force_setting := by
  unfold set_pulse_height at h ⊢
  by_cases hskip : s.current_ph = some par ∧ s.force_setting = false
  · rw [if_pos hskip]
    exact ⟨hskip.1, rfl⟩
  · rw [if_neg hskip] at h ⊢
    cases hcmd : command_pulse_height par with
    | error e =>
      rw [hcmd] at h
      simp at h
    | ok cb =>
      rw [hcmd] at h
      dsimp only [] at h ⊢
      obtain ⟨i, o, hso⟩ := send_setting_command_serial_only cb.1 (some cb.2) false s
      cases hres : (send_setting_command cb.1 (some cb.2) false s).1 with
      | error e =>
        rw [hres] at h
        simp at h
      | ok u =>
        dsimp only []
        rw [hso]
        exact ⟨rfl, rfl⟩

/-- In-bound pulse heights are accepted and encoded by the high/low split. -/
lemma command_pulse_height_ok (par : Int) (h0 : 0 ≤ par) (h1 : par ≤ max_pulse_height) :
    command_pulse_height par =
      .ok ([[cmd_ph_hi, par.toNat >>> 8], [cmd_ph_lo, par.toNat &&& 255], [cmd_ph_end]],
           [cmd_ph_hi, cmd_ph_lo, cmd_ph_end]) := by
  unfold command_pulse_height
  rw [if_neg]
  simp only [not_or, not_lt]
  exact ⟨h1, h0⟩

/-- In-bound pulse widths are accepted and encoded by the high/low split. -/
lemma command_pulse_width_ok (par : Int) (h0 : 0 ≤ par) (h1 : par ≤ max_pulse_width) :
    command_pulse_width par =
      .ok ([[cmd_pw_hi, par.toNat >>> 8], [cmd_pw_lo, par.toNat &&& 255, cmd_pw_end]],
           [cmd_pw_hi, cmd_pw_lo, cmd_pw_end]) := by
  unfold command_pulse_width
  rw [if_neg]
  simp only [not_or, not_lt]
  exact ⟨h1, h0⟩

/-- In-bound, unadjusted pulse numbers are accepted with the lookup bytes. -/
lemma command_pulse_number_ok (ext : Externals) (par : Int) (h0 : 0 ≤ par)
    (h1 : par ≤ max_pulse_number) (hadj : (ext.pulse_number par).1 = false) :
    command_pulse_number ext par =
      .ok ([[cmd_pn_hi, (ext.pulse_number par).2.2.1], [cmd_pn_lo, (ext.pulse_number par).2.2.2]],
           [cmd_pn_hi, cmd_pn_lo]) := by
  unfold command_pulse_number
  rw [if_neg]
  · dsimp only []
    rw [if_neg]
    rw [hadj]
    simp
  · simp only [not_or, not_lt]
    exact ⟨h1, h0⟩

/-- In-bound pulse delays are accepted and split into the integer
millisecond byte and the truncated 1/250 sub-unit byte. -/
lemma command_pulse_delay_ok (par : ℚ) (h0 : 0 ≤ par) (h1 : par ≤ max_pulse_delay) :
    command_pulse_delay par =
      .ok ([[cmd_pd, (⌊par⌋).toNat], [(specPulseDelaySubUnitTrunc par).toNat]], [cmd_pd]) := by
  unfold command_pulse_delay
  rw [if_neg]
  · dsimp only []
    rw [pytrunc_of_nonneg h0, pytrunc_of_nonneg]
    · rfl
    · have hfl : (⌊par⌋ : ℚ) ≤ par := Int.floor_le par
      nlinarith
  · simp only [not_or, not_lt]
    exact ⟨h1, h0⟩

/-- In-bound trigger delays are accepted and encoded as `par / 5`. -/
lemma command_trigger_delay_ok (par : Int) (h0 : 0 ≤ par) (h1 : par ≤ max_trigger_delay) :
    command_trigger_delay par = .ok ([[cmd_td, (par / 5).toNat]], [cmd_td]) := by
  unfold command_trigger_delay
  rw [if_neg]
  simp only [not_or, not_lt]
  exact ⟨h1, h0⟩

/-- In-bound, unadjusted fibre delays are accepted with the lookup byte. -/
lemma command_fibre_delay_ok (ext : Externals) (par : ℚ) (h0 : 0 ≤ par)
    (h1 : par ≤ max_fibre_delay) (hadj : (ext.fibre_delay par).1 = false) :
    command_fibre_delay ext par =
      .ok ([[cmd_fd, (ext.fibre_delay par).2.2]], [cmd_fd]) := by
  unfold command_fibre_delay
  rw [if_neg]
  · dsimp only []
    rw [if_neg]
    rw [hadj]
    simp
  · simp only [not_or, not_lt]
    exact ⟨h1, h0⟩

/-- While firing, a plain (non-`while_fire`) setting send fails
immediately with the firing-mode error and changes nothing. -/
lemma send_setting_command_firing (c : List (List Nat)) (b : Option (List Nat))
    (s : SCState) (hf : s.firing = true) :
    send_setting_command c b false s = (.error .illegalWhileFiring, s) := by
  unfold send_setting_command
  rw [if_pos hf, if_pos rfl]

/-- After a successful `set_pulse_number` the cache holds the value and
the force flag is as before the call. -/
lemma set_pulse_number_ok_state (ext : Externals) (par : Int) (s : SCState)
    (h : (set_pulse_number ext par s).1 = .ok ()) :
    (set_pulse_number ext par s).2.current_pn = some par ∧
    (set_pulse_number ext par s).2.force_setting = s.force_setting := by
  unfold set_pulse_number at h ⊢
  by_cases hskip : s.current_pn = some par ∧ s.force_setting = false
  · rw [if_pos hskip]
    exact ⟨hskip.1, rfl⟩
  · rw [if_neg hskip] at h ⊢
    cases hcmd : command_pulse_number ext par with
    | error e =>
      rw [hcmd] at h
      simp at h
    | ok cb =>
      rw [hcmd] at h
      dsimp only [] at h ⊢
      obtain ⟨i, o, hso⟩ := send_setting_command_serial_only cb.1 (some cb.2) false s
      cases hres : (send_setting_command cb.1 (some cb.2) false s).1 with
      | error e =>
        rw [hres] at h
        simp at h
      | ok u =>
        dsimp only []
        rw [hso]
        exact ⟨rfl, rfl⟩

/-- After a successful `set_pulse_delay` the cache holds the value and
the force flag is as before the call. -/
lemma set_pulse_delay_ok_state (par : ℚ) (s : SCState)
    (h : (set_pulse_delay par s).1 = .ok ()) :
    (set_pulse_delay par s).2.current_pd = some par ∧
    (set_pulse_delay par s).2.force_setting = s.force_setting := by
  unfold set_pulse_delay at h ⊢
  by_cases hskip : s.current_pd = some par ∧ s.force_setting = false
  · rw [if_pos hskip]
    exact ⟨hskip.1, rfl⟩
  · rw [if_neg hskip] at h ⊢
    cases hcmd : command_pulse_delay par with
    | error e =>
      rw [hcmd] at h
      simp at h
    | ok cb =>
      rw [hcmd] at h
      dsimp only [] at h ⊢
      obtain ⟨i, o, hso⟩ := send_setting_command_serial_only cb.1 (some cb.2) false s
      cases hres : (send_setting_command cb.1 (some cb.2) false s).1 with
      | error e =>
        rw [hres] at h
        simp at h
      | ok u =>
        dsimp only []
        rw [hso]
        exact ⟨rfl, rfl⟩

/-- After a successful `set_trigger_delay` the cache holds the value and
the force flag is as before the call. -/
lemma set_trigger_delay_ok_state (par : Int) (s : SCState)
    (h : (set_trigger_delay par s).1 = .ok ()) :
    (set_trigger_delay par s).2.current_td = some par ∧
    (set_trigger_delay par s).2.force_setting = s.force_setting := by
  unfold set_trigger_delay at h ⊢
  by_cases hskip : s.current_td = some par ∧ s.force_setting = false
  · rw [if_pos hskip]
    exact ⟨hskip.1, rfl⟩
  · rw [if_neg hskip] at h ⊢
    cases hcmd : command_trigger_delay par with
    | error e =>
      rw [hcmd] at h
      simp at h
    | ok cb =>
      rw [hcmd] at h
      dsimp only [] at h ⊢
      obtain ⟨i, o, hso⟩ := send_setting_command_serial_only cb.1 (some cb.2) false s
      cases hres : (send_setting_command cb.1 (some cb.2) false s).1 with
      | error e =>
        rw [hres] at h
        simp at h
      | ok u =>
        dsimp only []
        rw [hso]
        exact ⟨rfl, rfl⟩

/-- After a successful `set_fibre_delay` there was exactly one selected
channel, its cache entry holds the value, and the force flag and the
channel selection are as before the call. -/
lemma set_fibre_delay_ok_state (ext : Externals) (par : ℚ) (s : SCState)
    (h : (set_fibre_delay ext par s).1 = .ok ()) :
    s.channel.length = 1 ∧
    (set_fibre_delay ext par s).2.current_fd (s.channel.headD 0) = some par ∧
    (set_fibre_delay ext par s).2.force_setting = s.force_setting ∧
    (set_fibre_delay ext par s).2.channel = s.channel := by
  unfold set_fibre_delay at h ⊢
  by_cases hch : s.channel.length ≠ 1
  · rw [if_pos hch] at h
    simp at h
  · have hch1 : s.channel.length = 1 := not_not.mp hch
    rw [if_neg hch] at h ⊢
    dsimp only [] at h ⊢
    by_cases hskip : s.current_fd (s.channel.headD 0) = some par ∧ s.force_setting = false
    · rw [if_pos hskip]
      exact ⟨hch1, hskip.1, rfl, rfl⟩
    · rw [if_neg hskip] at h ⊢
      cases hcmd : command_fibre_delay ext par with
      | error e =>
        rw [hcmd] at h
        simp at h
      | ok cb =>
        rw [hcmd] at h
        dsimp only [] at h ⊢
        obtain ⟨i, o, hso⟩ := send_setting_command_serial_only cb.1 (some cb.2) false s
        have hso2 : (send_channel_setting_command cb.1 (some cb.2) s).2 =
            { s with serialIn := i, serialOut := o } := hso
        cases hres : (send_channel_setting_command cb.1 (some cb.2) s).1 with
        | error e =>
          rw [hres] at h
          simp at h
        | ok u =>
          dsimp only []
          rw [hso2]
          refine ⟨hch1, ?_, rfl, rfl⟩
          simp

/-- If `set_pulse_height` fails for any reason the cache is unchanged. -/
lemma set_pulse_height_err_state (par : Int) (s : SCState) (e : Err)
    (h : (set_pulse_height par s).1 = .error e) :
    (set_pulse_height par s).2.current_ph = s.current_ph := by
  unfold set_pulse_height at h ⊢
  by_cases hskip : s.current_ph = some par ∧ s.force_setting = false
  · rw [if_pos hskip] at h
    simp at h
  · rw [if_neg hskip] at h ⊢
    cases hcmd : command_pulse_height par with
    | error e2 => rfl
    | ok cb =>
      rw [hcmd] at h
      dsimp only [] at h ⊢
      obtain ⟨i, o, hso⟩ := send_setting_command_serial_only cb.1 (some cb.2) false s
      cases hres : (send_setting_command cb.1 (some cb.2) false s).1 with
      | error e2 =>
        dsimp only []
        rw [hso]
      | ok u =>
        rw [hres] at h
        simp at h

/-- If `set_pulse_number` fails for any reason the cache is unchanged. -/
lemma set_pulse_number_err_state (ext : Externals) (par : Int) (s : SCState) (e : Err)
    (h : (set_pulse_number ext par s).1 = .error e) :
    (set_pulse_number ext par s).2.current_pn = s.current_pn := by
  unfold set_pulse_number at h ⊢
  by_cases hskip : s.current_pn = some par ∧ s.force_setting = false
  · rw [if_pos hskip] at h
    simp at h
  · rw [if_neg hskip] at h ⊢
    cases hcmd : command_pulse_number ext par with
    | error e2 => rfl
    | ok cb =>
      rw [hcmd] at h
      dsimp only [] at h ⊢
      obtain ⟨i, o, hso⟩ := send_setting_command_serial_only cb.1 (some cb.2) false s
      cases hres : (send_setting_command cb.1 (some cb.2) false s).1 with
      | error e2 =>
        dsimp only []
        rw [hso]
      | ok u =>
        rw [hres] at h
        simp at h

/-- If `set_pulse_delay` fails for any reason the cache is unchanged. -/
lemma set_pulse_delay_err_state (par : ℚ) (s : SCState) (e : Err)
    (h : (set_pulse_delay par s).1 = .error e) :
    (set_pulse_delay par s).2.current_pd = s.current_pd := by
  unfold set_pulse_delay at h ⊢
  by_cases hskip : s.current_pd = some par ∧ s.force_setting = false
  · rw [if_pos hskip] at h
    simp at h
  · rw [if_neg hskip] at h ⊢
    cases hcmd : command_pulse_delay par with
    | error e2 => rfl
    | ok cb =>
      rw [hcmd] at h
      dsimp only [] at h ⊢
      obtain ⟨i, o, hso⟩ := send_setting_command_serial_only cb.1 (some cb.2) false s
      cases hres : (send_setting_command cb.1 (some cb.2) false s).1 with
      | error e2 =>
        dsimp only []
        rw [hso]
      | ok u =>
        rw [hres] at h
        simp at h

/-- If `set_trigger_delay` fails for any reason the cache is unchanged. -/
lemma set_trigger_delay_err_state (par : Int) (s : SCState) (e : Err)
    (h : (set_trigger_delay par s).1 = .error e) :
    (set_trigger_delay par s).2.current_td = s.current_td := by
  unfold set_trigger_delay at h ⊢
  by_cases hskip : s.current_td = some par ∧ s.force_setting = false
  · rw [if_pos hskip] at h
    simp at h
  · rw [if_neg hskip] at h ⊢
    cases hcmd : command_trigger_delay par with
    | error e2 => rfl
    | ok cb =>
      rw [hcmd] at h
      dsimp only [] at h ⊢
      obtain ⟨i, o, hso⟩ := send_setting_command_serial_only cb.1 (some cb.2) false s
      cases hres : (send_setting_command cb.1 (some cb.2) false s).1 with
      | error e2 =>
        dsimp only []
        rw [hso]
      | ok u =>
        rw [hres] at h
        simp at h

/-- If `set_fibre_delay` fails for any reason the per-channel cache map
is unchanged. -/
lemma set_fibre_delay_err_state (ext : Externals) (par : ℚ) (s : SCState) (e : Err)
    (h : (set_fibre_delay ext par s).1 = .error e) :
    (set_fibre_delay ext par s).2.current_fd = s.current_fd := by
  unfold set_fibre_delay at h ⊢
  by_cases hch : s.channel.length ≠ 1
  · rw [if_pos hch]
  · rw [if_neg hch] at h ⊢
    dsimp only [] at h ⊢
    by_cases hskip : s.current_fd (s.channel.headD 0) = some par ∧ s.force_setting = false
    · rw [if_pos hskip] at h
      simp at h
    · rw [if_neg hskip] at h ⊢
      cases hcmd : command_fibre_delay ext par with
      | error e2 => rfl
      | ok cb =>
        rw [hcmd] at h
        dsimp only [] at h ⊢
        obtain ⟨i, o, hso⟩ := send_setting_command_serial_only cb.1 (some cb.2) false s
        have hso2 : (send_channel_setting_command cb.1 (some cb.2) s).2 =
            { s with serialIn := i, serialOut := o } := hso
        cases hres : (send_channel_setting_command cb.1 (some cb.2) s).1 with
        | error e2 =>
          dsimp only []
          rw [hso2]
        | ok u =>
          rw [hres] at h
          simp at h

/-- When the echo read yields exactly the expected bytes, the send
succeeds having consumed one read yield and written the command units. -/
lemma send_command_echo_ok (c : List (List Nat)) (b : List Nat) (s : SCState)
    (hne : b ≠ []) (hecho : (s.serialIn.headD []).take b.length = b) :
    send_command c true (some b) s =
      (.ok (), { s with
        serialIn := s.serialIn.tail,
        serialOut := s.serialOut ++ c.flatten }) := by
  have hbc : b.isEmpty = false := by
    cases b with
    | nil => exact absurd rfl hne
    | cons a l => rfl
  unfold send_command serialWrite serialRead
  dsimp only []
  simp only [hbc, Bool.false_eq_true, if_false, eq_self_iff_true, if_true]
  rw [if_neg (not_ne_iff.mpr hecho)]

/-- When the echo read yields anything else, the send performs the one
built-in recovery (drain, stop byte, clear byte, drain) and fails with
the desync error carrying the bytes seen, the drained remainder and the
expected bytes. -/
lemma send_command_echo_mismatch (c : List (List Nat)) (b : List Nat) (s : SCState)
    (hne : b ≠ []) (hmis : (s.serialIn.headD []).take b.length ≠ b) :
    send_command c true (some b) s =
      (.error (.protocolDesync ((s.serialIn.headD []).take b.length)
          ((s.serialIn.tail.headD []).take 100) b),
       { s with
         serialIn := s.serialIn.tail.tail.tail,
         serialOut := s.serialOut ++ c.flatten ++ [cmd_stop] ++ [cmd_channel_clear] }) := by
  have hbc : b.isEmpty = false := by
    cases b with
    | nil => exact absurd rfl hne
    | cons a l => rfl
  unfold send_command serialWrite serialRead
  dsimp only []
  simp only [hbc, Bool.false_eq_true, if_false, eq_self_iff_true, if_true]
  rw [if_pos hmis]

/-- Source `check_ready` succeeds, without touching the state, when the
three mandatory settings are cached. -/
lemma check_ready_ok (s : SCState) (hph : s.current_ph ≠ none)
    (hpn : s.current_pn ≠ none) (hpd : s.current_pd ≠ none) :
    check_ready s = (.ok (), s) := by
  unfold check_ready
  simp [hph, hpn, hpd]

/-- Source `check_ready` never changes the state. -/
lemma check_ready_state (s : SCState) : (check_ready s).2 = s := by
  unfold check_ready
  dsimp only []
  by_cases h : ((if s.current_ph = none then ["Pulse height"] else []) ++
      (if s.current_pn = none then ["Pulse number"] else []) ++
      (if s.current_pd = none then ["Pulse delay"] else [])) ≠ []
  · rw [if_pos h]
  · rw [if_neg h]


/-- Short-train fire (`pn * pd < 500`): the expected echo is the fire
command code with the end marker appended; when the echo matches, the
call returns with the firing flag still false and the force flag
cleared. -/
lemma fire_short_ok (s : SCState) (pn0 : Int) (pd0 : ℚ)
    (hf : s.firing = false) (hph : s.current_ph ≠ none)
    (hpn : s.current_pn = some pn0) (hpd : s.current_pd = some pd0)
    (hlt : (pn0 : ℚ) * pd0 < 500)
    (hecho : (s.serialIn.headD []).take 2 = [cmd_fire_series, buffer_end_sequence]) :
    fire false s = (.ok (), { s with
      serialIn := s.serialIn.tail,
      serialOut := s.serialOut ++ [cmd_fire_series],
      force_setting := false }) := by
  have hcr : check_ready s = (.ok (), s) :=
    check_ready_ok s hph (by simp [hpn]) (by simp [hpd])
  unfold fire
  rw [if_neg (by simp [hf])]
  dsimp only []
  rw [hcr]
  dsimp only []
  rw [hpn, hpd]
  dsimp only [Option.getD_some]
  rw [if_pos (by exact_mod_cast hlt)]
  rw [send_command_echo_ok [[cmd_fire_series]] [cmd_fire_series, buffer_end_sequence] s
    (by simp) (by simpa using hecho)]
  simp [hpn, hpd]

/-- Short-train fire with a mismatched echo: the desync failure
propagates out of `fire`. -/
lemma fire_short_mismatch (s : SCState) (pn0 : Int) (pd0 : ℚ)
    (hf : s.firing = false) (hph : s.current_ph ≠ none)
    (hpn : s.current_pn = some pn0) (hpd : s.current_pd = some pd0)
    (hlt : (pn0 : ℚ) * pd0 < 500)
    (hmis : (s.serialIn.headD []).take 2 ≠ [cmd_fire_series, buffer_end_sequence]) :
    (fire false s).1 =
      .error (.protocolDesync ((s.serialIn.headD []).take 2)
        ((s.serialIn.tail.headD []).take 100) [cmd_fire_series, buffer_end_sequence]) := by
  have hcr : check_ready s = (.ok (), s) :=
    check_ready_ok s hph (by simp [hpn]) (by simp [hpd])
  unfold fire
  rw [if_neg (by simp [hf])]
  dsimp only []
  rw [hcr]
  dsimp only []
  rw [hpn, hpd]
  dsimp only [Option.getD_some]
  rw [if_pos (by exact_mod_cast hlt)]
  rw [send_command_echo_mismatch [[cmd_fire_series]] [cmd_fire_series, buffer_end_sequence] s
    (by simp) (by simpa using hmis)]
  simp

/-- Long-train fire (`pn * pd >= 500`): the expected echo is the bare
fire command code; when it matches, the call returns with the firing
flag set and the force flag cleared. -/
lemma fire_long_ok (s : SCState) (pn0 : Int) (pd0 : ℚ)
    (hf : s.firing = false) (hph : s.current_ph ≠ none)
    (hpn : s.current_pn = some pn0) (hpd : s.current_pd = some pd0)
    (hge : ¬((pn0 : ℚ) * pd0 < 500))
    (hecho : (s.serialIn.headD []).take 1 = [cmd_fire_series]) :
    fire false s = (.ok (), { s with
      serialIn := s.serialIn.tail,
      serialOut := s.serialOut ++ [cmd_fire_series],
      firing := true,
      force_setting := false }) := by
  have hcr : check_ready s = (.ok (), s) :=
    check_ready_ok s hph (by simp [hpn]) (by simp [hpd])
  unfold fire
  rw [if_neg (by simp [hf])]
  dsimp only []
  rw [hcr]
  dsimp only []
  rw [hpn, hpd]
  dsimp only [Option.getD_some]
  rw [if_neg (by exact_mod_cast hge)]
  rw [send_command_echo_ok [[cmd_fire_series]] [cmd_fire_series] s
    (by simp) (by simpa using hecho)]
  simp [hpn, hpd]

/-- Long-train fire with a mismatched echo: the desync failure
propagates out of `fire` (and the firing flag is not set). -/
lemma fire_long_mismatch (s : SCState) (pn0 : Int) (pd0 : ℚ)
    (hf : s.firing = false) (hph : s.current_ph ≠ none)
    (hpn : s.current_pn = some pn0) (hpd : s.current_pd = some pd0)
    (hge : ¬((pn0 : ℚ) * pd0 < 500))
    (hmis : (s.serialIn.headD []).take 1 ≠ [cmd_fire_series]) :
    (fire false s).1 =
      .error (.protocolDesync ((s.serialIn.headD []).take 1)
        ((s.serialIn.tail.headD []).take 100) [cmd_fire_series]) := by
  have hcr : check_ready s = (.ok (), s) :=
    check_ready_ok s hph (by simp [hpn]) (by simp [hpd])
  unfold fire
  rw [if_neg (by simp [hf])]
  dsimp only []
  rw [hcr]
  dsimp only []
  rw [hpn, hpd]
  dsimp only [Option.getD_some]
  rw [if_neg (by exact_mod_cast hge)]
  rw [send_command_echo_mismatch [[cmd_fire_series]] [cmd_fire_series] s
    (by simp) (by simpa using hmis)]
  simp

/-- Source `fire_continuous` while firing with no end marker in the
buffer read: fails with the already-firing error, one read consumed. -/
lemma fire_continuous_blocked (s : SCState) (hf : s.firing = true)
    (hnm : buffer_end_sequence ∉ (s.serialIn.headD []).take 100) :
    fire_continuous s = (.error .alreadyFiring, { s with serialIn := s.serialIn.tail }) := by
  unfold fire_continuous serialRead
  dsimp only []
  rw [if_pos hf, if_neg hnm]

/-- Source `fire_continuous` from the idle state: sends the continuous
command without echo verification and enters firing mode. -/
lemma fire_continuous_idle (s : SCState) (hf : s.firing = false) :
    fire_continuous s = (.ok (), { s with
      serialOut := s.serialOut ++ [cmd_fire_continuous],
      firing := true,
      force_setting := false }) := by
  unfold fire_continuous
  rw [if_neg (by simp [hf])]
  dsimp only []
  unfold send_command serialWrite
  dsimp only []
  rfl

/-- Source `fire_sequence` has no firing-mode reentry check: whenever
the mandatory settings are cached it sends the fire-series command
without echo verification and enters firing mode, whatever the firing
flag was. -/
lemma fire_sequence_unchecked (w : Bool) (s : SCState)
    (hph : s.current_ph ≠ none) (hpn : s.current_pn ≠ none) (hpd : s.current_pd ≠ none) :
    fire_sequence w s = (.ok (), { s with
      serialOut := s.serialOut ++ [cmd_fire_series],
      firing := true,
      force_setting := false }) := by
  have hcr : check_ready s = (.ok (), s) := check_ready_ok s hph hpn hpd
  unfold fire_sequence
  rw [hcr]
  dsimp only []
  unfold send_command serialWrite
  dsimp only []
  rfl

/-- Source `stop` in full: the stop byte is written with no echo read,
one drain read of up to 100 bytes is returned, and the firing flag is
unconditionally cleared; no failure is possible. -/
lemma stop_eq (s : SCState) :
    stop s = (.ok ((s.serialIn.headD []).take 100), { s with
      serialIn := s.serialIn.tail,
      serialOut := s.serialOut ++ [cmd_stop],
      firing := false }) := by
  unfold stop send_command serialWrite serialRead
  dsimp only []
  rfl

/-- The cache-equality skip of `set_pulse_height`. -/
lemma set_pulse_height_skip (par : Int) (s : SCState)
    (h1 : s.current_ph = some par) (h2 : s.force_setting = false) :
    set_pulse_height par s = (.ok (), s) := by
  unfold set_pulse_height
  rw [if_pos ⟨h1, h2⟩]

/-- The cache-equality skip of `set_pulse_number`. -/
lemma set_pulse_number_skip (ext : Externals) (par : Int) (s : SCState)
    (h1 : s.current_pn = some par) (h2 : s.force_setting = false) :
    set_pulse_number ext par s = (.ok (), s) := by
  unfold set_pulse_number
  rw [if_pos ⟨h1, h2⟩]

/-- The cache-equality skip of `set_pulse_delay`. -/
lemma set_pulse_delay_skip (par : ℚ) (s : SCState)
    (h1 : s.current_pd = some par) (h2 : s.force_setting = false) :
    set_pulse_delay par s = (.ok (), s) := by
  unfold set_pulse_delay
  rw [if_pos ⟨h1, h2⟩]

/-- The cache-equality skip of `set_trigger_delay`. -/
lemma set_trigger_delay_skip (par : Int) (s : SCState)
    (h1 : s.current_td = some par) (h2 : s.force_setting = false) :
    set_trigger_delay par s = (.ok (), s) := by
  unfold set_trigger_delay
  rw [if_pos ⟨h1, h2⟩]

/-- The cache-equality skip of `set_fibre_delay`. -/
lemma set_fibre_delay_skip (ext : Externals) (par : ℚ) (s : SCState)
    (hch : s.channel.length = 1)
    (h1 : s.current_fd (s.channel.headD 0) = some par) (h2 : s.force_setting = false) :
    set_fibre_delay ext par s = (.ok (), s) := by
  unfold set_fibre_delay
  rw [if_neg (by simp [hch])]
  dsimp only []
  rw [if_pos ⟨h1, h2⟩]

/-! ## Claim theorems -/

/-- C6: for every pulse height in the closed bound `[0, 16383]` the
encoder succeeds and its high and low payload bytes satisfy
`high * 256 + low = value` — the split is a lossless round trip. -/
theorem C6_pulse_height_roundtrip (par : Int) (h0 : 0 ≤ par)
    (h1 : par ≤ max_pulse_height) :
    ∃ hi lo, command_pulse_height par =
        .ok ([[cmd_ph_hi, hi], [cmd_ph_lo, lo], [cmd_ph_end]],
             [cmd_ph_hi, cmd_ph_lo, cmd_ph_end]) ∧
      hi * 256 + lo = par.toNat := by
  refine ⟨par.toNat >>> 8, par.toNat &&& 255, command_pulse_height_ok par h0 h1, ?_⟩
  rw [shiftRight8_eq_div, land255_eq_mod]
  omega

/-- C6 witness: the round trip at pulse height 1000. -/
theorem C6_pulse_height_roundtrip_witness :
    ∃ hi lo, command_pulse_height 1000 =
        .ok ([[cmd_ph_hi, hi], [cmd_ph_lo, lo], [cmd_ph_end]],
             [cmd_ph_hi, cmd_ph_lo, cmd_ph_end]) ∧
      hi * 256 + lo = (1000 : Int).toNat :=
  C6_pulse_height_roundtrip 1000 (by decide) (by decide)

/-- C2 counterexample: the pulse delay value 256 lies inside the stated
closed bound `[0, 256.02]`, yet the encoder emits the payload byte 256,
which is outside `0..255` (the real `chr(256)` would blow up).  The
claimed in-range property therefore fails at an in-bound input. -/
theorem C2_pulse_delay_byte_overflow_counterexample :
    (0 : ℚ) ≤ 256 ∧ (256 : ℚ) ≤ max_pulse_delay ∧
    command_pulse_delay 256 = .ok ([[cmd_pd, 256], [0]], [cmd_pd]) ∧
    ¬((256 : Nat) ≤ 255) := by
  refine ⟨by norm_num, by norm_num [max_pulse_delay], ?_, by norm_num⟩
  rw [command_pulse_delay, if_neg (by norm_num [max_pulse_delay])]
  norm_num [pytrunc, cmd_pd, Int.toNat_ofNat]
  rfl

/-- C2 (amended): every payload byte is in `0..255` for pulse heights
in `[0, 16383]`, pulse widths in `[0, 16383]` and trigger delays in
`[0, 1275]`; for pulse delay this holds on `[0, 256)` — for the values
in `[256, 256.02]` still admitted by the bound check, the millisecond
byte is 256 and falls outside the range (see the counterexample). -/
theorem C2_payload_bytes_in_range_amended :
    (∀ par : Int, 0 ≤ par → par ≤ max_pulse_height →
      ∀ r, command_pulse_height par = .ok r → ∀ b ∈ r.1.flatten, b ≤ 255) ∧
    (∀ par : Int, 0 ≤ par → par ≤ max_pulse_width →
      ∀ r, command_pulse_width par = .ok r → ∀ b ∈ r.1.flatten, b ≤ 255) ∧
    (∀ par : Int, 0 ≤ par → par ≤ max_trigger_delay →
      ∀ r, command_trigger_delay par = .ok r → ∀ b ∈ r.1.flatten, b ≤ 255) ∧
    (∀ par : ℚ, 0 ≤ par → par < 256 →
      ∀ r, command_pulse_delay par = .ok r → ∀ b ∈ r.1.flatten, b ≤ 255) := by
  refine ⟨?_, ?_, ?_, ?_⟩
  · intro par h0 h1 r hr b hb
    rw [command_pulse_height_ok par h0 h1] at hr
    injection hr with hr
    subst hr
    have hn : par.toNat ≤ 16383 := by
      unfold max_pulse_height at h1
      omega
    simp only [List.flatten, List.cons_append, List.nil_append, List.append_nil,
      List.mem_cons, List.not_mem_nil, or_false] at hb
    rcases hb with rfl | rfl | rfl | rfl | rfl
    · norm_num [cmd_ph_hi]
    · rw [shiftRight8_eq_div]
      omega
    · norm_num [cmd_ph_lo]
    · rw [land255_eq_mod]
      omega
    · norm_num [cmd_ph_end]
  · intro par h0 h1 r hr b hb
    rw [command_pulse_width_ok par h0 h1] at hr
    injection hr with hr
    subst hr
    have hn : par.toNat ≤ 16383 := by
      unfold max_pulse_width at h1
      omega
    simp only [List.flatten, List.cons_append, List.nil_append, List.append_nil,
      List.mem_cons, List.not_mem_nil, or_false] at hb
    rcases hb with rfl | rfl | rfl | rfl | rfl
    · norm_num [cmd_pw_hi]
    · rw [shiftRight8_eq_div]
      omega
    · norm_num [cmd_pw_lo]
    · rw [land255_eq_mod]
      omega
    · norm_num [cmd_pw_end]
  · intro par h0 h1 r hr b hb
    rw [command_trigger_delay_ok par h0 h1] at hr
    injection hr with hr
    subst hr
    have hn : par ≤ 1275 := by
      unfold max_trigger_delay at h1
      omega
    simp only [List.flatten, List.cons_append, List.nil_append, List.append_nil,
      List.mem_cons, List.not_mem_nil, or_false] at hb
    rcases hb with rfl | rfl
    · norm_num [cmd_td]
    · omega
  · intro par h0 h1 r hr b hb
    have h1' : par ≤ max_pulse_delay :=
      le_trans (le_of_lt h1) (by norm_num [max_pulse_delay])
    rw [command_pulse_delay_ok par h0 h1'] at hr
    injection hr with hr
    subst hr
    have hms : ⌊par⌋ < 256 := Int.floor_lt.mpr (by exact_mod_cast h1)
    have hms0 : 0 ≤ ⌊par⌋ := Int.floor_nonneg.mpr h0
    have hfr0 : (0 : ℚ) ≤ (par - ⌊par⌋) * 250 := by
      have := Int.floor_le par
      nlinarith
    have hfr : (par - ⌊par⌋) * 250 < 250 := by
      have := Int.lt_floor_add_one par
      nlinarith
    have hus : specPulseDelaySubUnitTrunc par < 250 := by
      unfold specPulseDelaySubUnitTrunc
      exact Int.floor_lt.mpr (by exact_mod_cast hfr)
    have hus0 : 0 ≤ specPulseDelaySubUnitTrunc par := by
      unfold specPulseDelaySubUnitTrunc
      exact Int.floor_nonneg.mpr hfr0
    simp only [List.flatten, List.cons_append, List.nil_append, List.append_nil,
      List.mem_cons, List.not_mem_nil, or_false] at hb
    rcases hb with rfl | rfl | rfl
    · norm_num [cmd_pd]
    · omega
    · omega

/-- C2 witness: the low payload byte of pulse height 1000 is in range. -/
theorem C2_payload_bytes_in_range_witness : (232 : Nat) ≤ 255 :=
  C2_payload_bytes_in_range_amended.1 1000 (by decide) (by decide)
    ([[cmd_ph_hi, 3], [cmd_ph_lo, 232], [cmd_ph_end]],
     [cmd_ph_hi, cmd_ph_lo, cmd_ph_end]) (by rfl) 232 (by decide)

/-- C5 counterexample: at pulse delay 0.007 ms the code emits the
sub-unit byte `int((0.007 - 0) * 250) = 1`, while the claimed formula
`round((value - floor(value)) * 250)` gives `round(1.75) = 2`. -/
theorem C5_subunit_round_counterexample :
    command_pulse_delay (7 / 1000) = .ok ([[cmd_pd, 0], [1]], [cmd_pd]) ∧
    specPulseDelaySubUnitRound (7 / 1000) = 2 := by
  constructor
  · rw [command_pulse_delay, if_neg (by norm_num [max_pulse_delay])]
    norm_num [pytrunc, cmd_pd, Int.toNat_ofNat]
  · rw [specPulseDelaySubUnitRound, round_eq]
    norm_num

/-- C5 (amended): for every pulse delay in `[0, 256.02]` the encoder
emits the integer millisecond part `int(value)` as one byte and a
sub-unit byte computed by truncation, `int((value - floor(value)) * 250)`
(truncation toward zero, not rounding to nearest). -/
theorem C5_pulse_delay_encoding_amended (par : ℚ) (h0 : 0 ≤ par)
    (h1 : par ≤ max_pulse_delay) :
    command_pulse_delay par =
      .ok ([[cmd_pd, (⌊par⌋).toNat], [(specPulseDelaySubUnitTrunc par).toNat]],
           [cmd_pd]) :=
  command_pulse_delay_ok par h0 h1

/-- C5 witness: the amended encoding at pulse delay 1.5 ms. -/
theorem C5_pulse_delay_encoding_witness :
    command_pulse_delay (3 / 2) =
      .ok ([[cmd_pd, (⌊(3 / 2 : ℚ)⌋).toNat],
            [(specPulseDelaySubUnitTrunc (3 / 2)).toNat]], [cmd_pd]) :=
  C5_pulse_delay_encoding_amended (3 / 2) (by norm_num) (by norm_num [max_pulse_delay])

/-- C7: an echo read that does not equal the expected bytes triggers
exactly one recovery pass — drain one read of up to 100 residual bytes,
write the stop byte, write the clear byte, drain one more read — and
then fails with the desync error carrying the mismatched bytes read,
the residual drained bytes and the originally expected bytes; the
output log shows the stop and clear bytes written exactly once, so the
recovery is not repeated. -/
theorem C7_desync_recovery (command : List (List Nat)) (expected : List Nat)
    (s : SCState) (hne : expected ≠ [])
    (hmis : (s.serialIn.headD []).take expected.length ≠ expected) :
    send_command command true (some expected) s =
      (.error (.protocolDesync ((s.serialIn.headD []).take expected.length)
          ((s.serialIn.tail.headD []).take 100) expected),
       { s with
         serialIn := s.serialIn.tail.tail.tail,
         serialOut := s.serialOut ++ command.flatten ++ [cmd_stop] ++ [cmd_channel_clear] }) :=
  send_command_echo_mismatch command expected s hne hmis

/-- C7 witness: a concrete mismatched echo produces the desync error
with the seen and drained bytes. -/
theorem C7_desync_recovery_witness :
    (send_command [[cmd_fire_series]] true (some [cmd_fire_series])
        { baseState with serialIn := [[1, 2, 3], [9], []] }).1 =
      .error (.protocolDesync [1] [9] [cmd_fire_series]) := by
  rw [C7_desync_recovery [[cmd_fire_series]] [cmd_fire_series] _ (by simp) (by decide)]
  rfl

/-- C9: `stop` called in any state never fails: it writes the stop
command without echo verification, drains one read of up to 100
residual bytes, and unconditionally clears the firing flag. -/
theorem C9_stop_always_idle (s : SCState) :
    stop s = (.ok ((s.serialIn.headD []).take 100), { s with
      serialIn := s.serialIn.tail,
      serialOut := s.serialOut ++ [cmd_stop],
      firing := false }) :=
  stop_eq s

/-- C1 counterexample: with the firing flag true, calling
`set_pulse_height` with the currently cached value (force flag off)
does *not* raise `IllegalWhileFiring` — the cache-equality skip runs
before the firing check, so the call returns silently. -/
theorem C1_cache_skip_while_firing_counterexample :
    ({ baseState with firing := true, current_ph := some 5 } : SCState).firing = true ∧
    set_pulse_height 5 { baseState with firing := true, current_ph := some 5 } =
      (.ok (), { baseState with firing := true, current_ph := some 5 }) := by
  constructor
  · rfl
  · unfold set_pulse_height
    rw [if_pos ⟨rfl, rfl⟩]

/-- C1 (amended): while the firing flag is true every plain setter
raises `IllegalWhileFiring` *provided* the value is not swallowed by
the cache-equality skip (the value differs from the cached one, or the
force flag is set) and the value is accepted by its encoder; when the
value equals the cached value and the force flag is off, the call is a
silent no-op (the skip precedes the firing check), and an
encoder-rejected value raises `InvalidParameter` instead. -/
theorem C1_set_while_firing_amended (ext : Externals) (s : SCState)
    (hf : s.firing = true) :
    (∀ par : Int, ¬(s.current_ph = some par ∧ s.force_setting = false) →
      0 ≤ par → par ≤ max_pulse_height →
      (set_pulse_height par s).1 = .error .illegalWhileFiring) ∧
    (∀ par : Int, ¬(s.current_pn = some par ∧ s.force_setting = false) →
      0 ≤ par → par ≤ max_pulse_number → (ext.pulse_number par).1 = false →
      (set_pulse_number ext par s).1 = .error .illegalWhileFiring) ∧
    (∀ par : ℚ, ¬(s.current_pd = some par ∧ s.force_setting = false) →
      0 ≤ par → par ≤ max_pulse_delay →
      (set_pulse_delay par s).1 = .error .illegalWhileFiring) ∧
    (∀ par : Int, ¬(s.current_td = some par ∧ s.force_setting = false) →
      0 ≤ par → par ≤ max_trigger_delay →
      (set_trigger_delay par s).1 = .error .illegalWhileFiring) ∧
    (∀ par : ℚ, s.channel.length = 1 →
      ¬(s.current_fd (s.channel.headD 0) = some par ∧ s.force_setting = false) →
      0 ≤ par → par ≤ max_fibre_delay → (ext.fibre_delay par).1 = false →
      (set_fibre_delay ext par s).1 = .error .illegalWhileFiring) := by
  refine ⟨?_, ?_, ?_, ?_, ?_⟩
  · intro par hskip h0 h1
    unfold set_pulse_height
    rw [if_neg hskip, command_pulse_height_ok par h0 h1]
    dsimp only []
    rw [send_setting_command_firing _ _ s hf]
  · intro par hskip h0 h1 hadj
    unfold set_pulse_number
    rw [if_neg hskip, command_pulse_number_ok ext par h0 h1 hadj]
    dsimp only []
    rw [send_setting_command_firing _ _ s hf]
  · intro par hskip h0 h1
    unfold set_pulse_delay
    rw [if_neg hskip, command_pulse_delay_ok par h0 h1]
    dsimp only []
    rw [send_setting_command_firing _ _ s hf]
  · intro par hskip h0 h1
    unfold set_trigger_delay
    rw [if_neg hskip, command_trigger_delay_ok par h0 h1]
    dsimp only []
    rw [send_setting_command_firing _ _ s hf]
  · intro par hch hskip h0 h1 hadj
    unfold set_fibre_delay
    rw [if_neg (by simp [hch])]
    dsimp only []
    rw [if_neg hskip, command_fibre_delay_ok ext par h0 h1 hadj]
    dsimp only []
    unfold send_channel_setting_command
    rw [send_setting_command_firing _ _ s hf]

/-- C1 witness: setting a fresh pulse height while firing raises the
firing-mode error. -/
theorem C1_set_while_firing_amended_witness :
    (set_pulse_height 7 { baseState with firing := true }).1 =
      .error .illegalWhileFiring :=
  (C1_set_while_firing_amended extId { baseState with firing := true } rfl).1 7
    (by simp [baseState]) (by decide) (by decide)

/-- C3: from the idle, fully configured state, `fire` verifies the echo
synchronously against the fire command code with the end marker
appended when `pulse_number * pulse_delay < 500`, leaving the firing
flag false; when the product is at least 500 the expected echo omits
the marker and the firing flag is true after return; the force flag is
false after either successful return. -/
theorem C3_fire_policy (s : SCState) (ph0 pn0 : Int) (pd0 : ℚ)
    (hf : s.firing = false) (hph : s.current_ph = some ph0)
    (hpn : s.current_pn = some pn0) (hpd : s.current_pd = some pd0) :
    (((pn0 : ℚ) * pd0 < 500) →
      (((fire false s).1 = .ok ()) ↔
        (s.serialIn.headD []).take 2 = [cmd_fire_series, buffer_end_sequence]) ∧
      ((s.serialIn.headD []).take 2 = [cmd_fire_series, buffer_end_sequence] →
        fire false s = (.ok (), { s with
          serialIn := s.serialIn.tail,
          serialOut := s.serialOut ++ [cmd_fire_series],
          force_setting := false }))) ∧
    (¬((pn0 : ℚ) * pd0 < 500) →
      (((fire false s).1 = .ok ()) ↔
        (s.serialIn.headD []).take 1 = [cmd_fire_series]) ∧
      ((s.serialIn.headD []).take 1 = [cmd_fire_series] →
        fire false s = (.ok (), { s with
          serialIn := s.serialIn.tail,
          serialOut := s.serialOut ++ [cmd_fire_series],
          firing := true,
          force_setting := false }))) := by
  have hph' : s.current_ph ≠ none := by simp [hph]
  refine ⟨fun hlt => ⟨⟨fun hok => ?_, fun he => ?_⟩,
            fun he => fire_short_ok s pn0 pd0 hf hph' hpn hpd hlt he⟩,
          fun hge => ⟨⟨fun hok => ?_, fun he => ?_⟩,
            fun he => fire_long_ok s pn0 pd0 hf hph' hpn hpd hge he⟩⟩
  · by_contra hmis
    rw [fire_short_mismatch s pn0 pd0 hf hph' hpn hpd hlt hmis] at hok
    simp at hok
  · rw [fire_short_ok s pn0 pd0 hf hph' hpn hpd hlt he]
  · by_contra hmis
    rw [fire_long_mismatch s pn0 pd0 hf hph' hpn hpd hge hmis] at hok
    simp at hok
  · rw [fire_long_ok s pn0 pd0 hf hph' hpn hpd hge he]

/-- C3 witness: firing with pulse number 1000 and pulse delay 1.0
(product 1000, at least 500) succeeds on the bare echo and leaves the
firing flag true. -/
theorem C3_fire_policy_witness :
    (fire false { baseState with
      current_ph := some 1, current_pn := some 1000,
      current_pd := some 1, serialIn := [[cmd_fire_series]] }).1 = .ok () ∧
    (fire false { baseState with
      current_ph := some 1, current_pn := some 1000,
      current_pd := some 1, serialIn := [[cmd_fire_series]] }).2.firing = true := by
  have h := (C3_fire_policy
    { baseState with
      current_ph := some 1, current_pn := some 1000,
      current_pd := some 1, serialIn := [[cmd_fire_series]] }
    1 1000 1 rfl rfl rfl rfl).2 (by norm_num)
  rw [h.2 (by rfl)]
  exact ⟨rfl, rfl⟩

/-- C4 counterexample: with the firing flag true and no end-of-sequence
marker available in any buffer read, `fire_sequence` still succeeds —
it performs no firing-mode reentry check at all, contradicting the
claim that it fails with `AlreadyFiring` like `fire` does. -/
theorem C4_fire_sequence_reentry_counterexample :
    ({ baseState with
      firing := true, current_ph := some 1, current_pn := some 1,
      current_pd := some 1 } : SCState).firing = true ∧
    ({ baseState with
      firing := true, current_ph := some 1, current_pn := some 1,
      current_pd := some 1 } : SCState).serialIn = [] ∧
    (fire_sequence false { baseState with
      firing := true, current_ph := some 1,
      current_pn := some 1, current_pd := some 1 }).1 = .ok () := by
  refine ⟨rfl, rfl, ?_⟩
  rw [fire_sequence_unchecked false _ (by decide) (by decide) (by simp)]

/-- C4 (amended): `fire_continuous` performs the same firing-mode
reentry check as `fire` — with the firing flag true and no end marker
in the buffer read it fails with `AlreadyFiring`, and otherwise it
sends its command without echo verification and sets the firing flag —
but `fire_sequence` performs *no* reentry check: whenever the mandatory
settings are configured it sends without echo verification and sets
the firing flag, regardless of the firing state. -/
theorem C4_fire_reentry_amended :
    (∀ s : SCState, s.firing = true →
      buffer_end_sequence ∉ (s.serialIn.headD []).take 100 →
      fire_continuous s =
        (.error .alreadyFiring, { s with serialIn := s.serialIn.tail })) ∧
    (∀ s : SCState, s.firing = false →
      fire_continuous s = (.ok (), { s with
        serialOut := s.serialOut ++ [cmd_fire_continuous],
        firing := true,
        force_setting := false })) ∧
    (∀ (w : Bool) (s : SCState), s.current_ph ≠ none → s.current_pn ≠ none →
      s.current_pd ≠ none →
      fire_sequence w s = (.ok (), { s with
        serialOut := s.serialOut ++ [cmd_fire_series],
        firing := true,
        force_setting := false })) :=
  ⟨fire_continuous_blocked, fire_continuous_idle, fire_sequence_unchecked⟩

/-- C4 witness: `fire_continuous` while firing with a quiet buffer
fails with the already-firing error. -/
theorem C4_fire_reentry_amended_witness :
    (fire_continuous { baseState with firing := true }).1 = .error .alreadyFiring := by
  rw [C4_fire_reentry_amended.1 { baseState with firing := true } rfl (by decide)]

/-- C8: from the idle state with the force flag off, a second call of
any setter with the same value as a successful first call returns the
state of the first call completely unchanged — in particular it
performs no serial write and no serial read, and leaves every cache
entry and flag as they were. -/
theorem C8_idempotent_second_call (ext : Externals) (s : SCState)
    (hfire : s.firing = false) (hforce : s.force_setting = false) :
    (∀ par : Int, (set_pulse_height par s).1 = .ok () →
      set_pulse_height par (set_pulse_height par s).2 =
        (.ok (), (set_pulse_height par s).2)) ∧
    (∀ par : Int, (set_pulse_number ext par s).1 = .ok () →
      set_pulse_number ext par (set_pulse_number ext par s).2 =
        (.ok (), (set_pulse_number ext par s).2)) ∧
    (∀ par : ℚ, (set_pulse_delay par s).1 = .ok () →
      set_pulse_delay par (set_pulse_delay par s).2 =
        (.ok (), (set_pulse_delay par s).2)) ∧
    (∀ par : Int, (set_trigger_delay par s).1 = .ok () →
      set_trigger_delay par (set_trigger_delay par s).2 =
        (.ok (), (set_trigger_delay par s).2)) ∧
    (∀ par : ℚ, (set_fibre_delay ext par s).1 = .ok () →
      set_fibre_delay ext par (set_fibre_delay ext par s).2 =
        (.ok (), (set_fibre_delay ext par s).2)) := by
  refine ⟨?_, ?_, ?_, ?_, ?_⟩
  · intro par hok
    obtain ⟨hc, hfs⟩ := set_pulse_height_ok_state par s hok
    exact set_pulse_height_skip par _ hc (hfs.trans hforce)
  · intro par hok
    obtain ⟨hc, hfs⟩ := set_pulse_number_ok_state ext par s hok
    exact set_pulse_number_skip ext par _ hc (hfs.trans hforce)
  · intro par hok
    obtain ⟨hc, hfs⟩ := set_pulse_delay_ok_state par s hok
    exact set_pulse_delay_skip par _ hc (hfs.trans hforce)
  · intro par hok
    obtain ⟨hc, hfs⟩ := set_trigger_delay_ok_state par s hok
    exact set_trigger_delay_skip par _ hc (hfs.trans hforce)
  · intro par hok
    obtain ⟨hch, hc, hfs, hchan⟩ := set_fibre_delay_ok_state ext par s hok
    refine set_fibre_delay_skip ext par _ ?_ ?_ (hfs.trans hforce)
    · rw [hchan]
      exact hch
    · rw [hchan]
      exact hc

/-- C8 witness: setting pulse height 3 twice from a fresh session whose
wire script provides a clear buffer and then the expected echo; the
second call leaves the state exactly as after the first. -/
theorem C8_idempotent_second_call_witness :
    set_pulse_height 3 ((set_pulse_height 3 { baseState with
        serialIn := [[], [cmd_ph_hi, cmd_ph_lo, cmd_ph_end]] }).2) =
      (.ok (), (set_pulse_height 3 { baseState with
        serialIn := [[], [cmd_ph_hi, cmd_ph_lo, cmd_ph_end]] }).2) :=
  (C8_idempotent_second_call extId { baseState with
      serialIn := [[], [cmd_ph_hi, cmd_ph_lo, cmd_ph_end]] } rfl rfl).1 3 (by rfl)

/-- C10: if any setter fails — value rejected by the encoder, buffer
not clear, echo mismatch, or the firing-mode error — the cached value
of that parameter is exactly what it was before the call: the cache is
updated only after a fully successful send. -/
theorem C10_cache_unchanged_on_error (ext : Externals) (s : SCState) :
    (∀ (par : Int) (e : Err), (set_pulse_height par s).1 = .error e →
      (set_pulse_height par s).2.current_ph = s.current_ph) ∧
    (∀ (par : Int) (e : Err), (set_pulse_number ext par s).1 = .error e →
      (set_pulse_number ext par s).2.current_pn = s.current_pn) ∧
    (∀ (par : ℚ) (e : Err), (set_pulse_delay par s).1 = .error e →
      (set_pulse_delay par s).2.current_pd = s.current_pd) ∧
    (∀ (par : Int) (e : Err), (set_trigger_delay par s).1 = .error e →
      (set_trigger_delay par s).2.current_td = s.current_td) ∧
    (∀ (par : ℚ) (e : Err), (set_fibre_delay ext par s).1 = .error e →
      (set_fibre_delay ext par s).2.current_fd = s.current_fd) :=
  ⟨fun par e h => set_pulse_height_err_state par s e h,
   fun par e h => set_pulse_number_err_state ext par s e h,
   fun par e h => set_pulse_delay_err_state par s e h,
   fun par e h => set_trigger_delay_err_state par s e h,
   fun par e h => set_fibre_delay_err_state ext par s e h⟩

/-- C10 witness: an out-of-bound pulse height (-1) fails and leaves the
pulse-height cache untouched. -/
theorem C10_cache_unchanged_on_error_witness :
    (set_pulse_height (-1) baseState).2.current_ph = baseState.current_ph :=
  (C10_cache_unchanged_on_error extId baseState).1 (-1) .invalidParameter (by rfl)
